import Mathlib

/-!
Shallow embedding of the FBX binary decoder of this repository
(src/fbx/header.rs, src/fbx/property.rs, src/fbx/node.rs,
src/fbx/node_collection.rs, src/fbx/importer.rs, src/scene/mesh.rs,
src/scene.rs), together with theorems settling the specification claims.

Modelling conventions:
* Bytes are `Nat` values; a seekable byte stream (Rust `Cursor`/`BufReader`
  with `Read + Seek`) is a `ByteStream`: the full underlying byte list plus
  the current position.  `read_exact` / `ReadBytesExt` reads that run out of
  bytes fail, modelled by `Option`, and are converted to `ParseError.IOError`
  exactly where the Rust code's `?` operator converts `std::io::Error`.
* Rust text values (`String`) are modelled as their raw byte lists; the
  UTF-8 well-formedness check performed by `String::from_utf8` is not
  modelled (no claim concerns it), so the byte content of every decoded
  text value is preserved exactly.
* `f32` / `f64` values are carried as their raw little-endian byte lists
  (4 resp. 8 bytes): the decoder never computes with floats, it only moves
  them, so this bit-level representation is exact.  The single `as f32`
  cast in importer.rs is an external floating-point operation and is passed
  in as a function parameter `conv`.
* The zlib inflate routine (`inflate::inflate_bytes_zlib`, an external
  crate, not part of this repository) is passed in as a function parameter
  `inflate : List Nat → Option (List Nat)`; `none` models its failure,
  which the Rust code turns into a panic by `.unwrap()`.
* Rust panics are modelled as the error `ParseError.Panic msg` (they abort
  the whole import just like propagated errors; nothing ever catches
  either).
* The recursion of `parse_node` is bounded by an explicit `fuel` argument
  (an artifact of the embedding); exhaustion yields `ParseError.OutOfFuel`,
  which no run with enough fuel produces.
-/

namespace Fbx

/-- Seekable byte stream: underlying data plus current read position. -/
structure ByteStream where
  data : List Nat
  pos : Nat
deriving DecidableEq, Repr

/-- Read exactly `n` bytes (Rust `read_exact`); `none` if the stream has
fewer than `n` bytes left. -/
def ByteStream.readN (s : ByteStream) (n : Nat) : Option (List Nat × ByteStream) :=
  if s.pos + n ≤ s.data.length then
    some ((s.data.drop s.pos).take n, ⟨s.data, s.pos + n⟩)
  else
    none

/-- Little-endian value of a byte list (first byte is least significant). -/
def leNat : List Nat → Nat
  | [] => 0
  | b :: rest => b + 256 * leNat rest

/-- Reinterpret an unsigned `bits`-wide value as two's-complement signed. -/
def toSigned (bits : Nat) (u : Nat) : Int :=
  if u < 2 ^ (bits - 1) then (u : Int) else (u : Int) - 2 ^ bits

/-- Read a little-endian u32 (Rust `read_u32::<LittleEndian>`). -/
def ByteStream.readU32 (s : ByteStream) : Option (Nat × ByteStream) :=
  match s.readN 4 with
  | none => none
  | some (bs, s') => some (leNat bs, s')

/-- Read one byte (Rust `read_u8`). -/
def ByteStream.readU8 (s : ByteStream) : Option (Nat × ByteStream) :=
  match s.readN 1 with
  | none => none
  | some (bs, s') => some (leNat bs, s')

/-- Error type of src/fbx.rs (`ParseError`), extended with the two
embedding artifacts described in the file header: `Panic` models Rust
panics, `OutOfFuel` models exhaustion of the explicit recursion bound. -/
inductive ParseError where
  | ValidationError (msg : String)
  | FormatError
  | IOError
  | Panic (msg : String)
  | OutOfFuel
deriving DecidableEq, Repr

/-- Result type of src/fbx.rs (`ParseResult<T>`). -/
abbrev ParseResult (α : Type) := Except ParseError α

/-- Property values, src/fbx/property.rs `PropertyRecordType`.  Text is
raw bytes; `f32`/`f64` values are their raw 4- resp. 8-byte
little-endian representations (see the file header). -/
inductive PropertyRecordType where
  | SignedInt16 (v : Int)
  | Boolean (v : Bool)
  | SignedInt32 (v : Int)
  | Float (raw : List Nat)
  | Double (raw : List Nat)
  | SignedInt64 (v : Int)
  | FloatArray (vs : List (List Nat))
  | DoubleArray (vs : List (List Nat))
  | SignedInt64Array (vs : List Int)
  | SignedInt32Array (vs : List Int)
  | BooleanArray (vs : List Bool)
  | String (bytes : List Nat)
  | BinaryData (bytes : List Nat)
deriving DecidableEq, Repr

/-- Lift a stream read into `ParseResult` the way Rust's `?` converts
`std::io::Error` into `ParseError::IOError`. -/
def ioRead {α : Type} (o : Option α) : ParseResult α :=
  match o with
  | none => .error .IOError
  | some a => .ok a

/-- Rust `parse_i16_property` (src/fbx/property.rs). -/
def parse_i16_property (s : ByteStream) : ParseResult (PropertyRecordType × ByteStream) :=
  match s.readN 2 with
  | none => .error .IOError
  | some (bs, s') => .ok (.SignedInt16 (toSigned 16 (leNat bs)), s')

/-- Rust `parse_i32_property` (src/fbx/property.rs). -/
def parse_i32_property (s : ByteStream) : ParseResult (PropertyRecordType × ByteStream) :=
  match s.readN 4 with
  | none => .error .IOError
  | some (bs, s') => .ok (.SignedInt32 (toSigned 32 (leNat bs)), s')

/-- Rust `parse_i64_property` (src/fbx/property.rs). -/
def parse_i64_property (s : ByteStream) : ParseResult (PropertyRecordType × ByteStream) :=
  match s.readN 8 with
  | none => .error .IOError
  | some (bs, s') => .ok (.SignedInt64 (toSigned 64 (leNat bs)), s')

/-- Rust `parse_f32_property` (src/fbx/property.rs); the float is kept as
its 4 raw little-endian bytes. -/
def parse_f32_property (s : ByteStream) : ParseResult (PropertyRecordType × ByteStream) :=
  match s.readN 4 with
  | none => .error .IOError
  | some (bs, s') => .ok (.Float bs, s')

/-- Rust `parse_f64_property` (src/fbx/property.rs); the double is kept as
its 8 raw little-endian bytes. -/
def parse_f64_property (s : ByteStream) : ParseResult (PropertyRecordType × ByteStream) :=
  match s.readN 8 with
  | none => .error .IOError
  | some (bs, s') => .ok (.Double bs, s')

/-- Rust `parse_bool_property` (src/fbx/property.rs): one byte, true iff
it equals 1. -/
def parse_bool_property (s : ByteStream) : ParseResult (PropertyRecordType × ByteStream) :=
  match s.readN 1 with
  | none => .error .IOError
  | some (bs, s') => .ok (.Boolean (leNat bs == 1), s')

/-- Array metadata, src/fbx/property.rs `ArrayMetaData`. -/
structure ArrayMetaData where
  length : Nat
  encoding : Nat
  compressed_length : Nat
deriving DecidableEq, Repr

/-- Rust `parse_array_metadata` (src/fbx/property.rs): three u32 fields. -/
def parse_array_metadata (s : ByteStream) : ParseResult (ArrayMetaData × ByteStream) :=
  match s.readU32 with
  | none => .error .IOError
  | some (length, s1) =>
    match s1.readU32 with
    | none => .error .IOError
    | some (encoding, s2) =>
      match s2.readU32 with
      | none => .error .IOError
      | some (compressed_length, s3) =>
        .ok (⟨length, encoding, compressed_length⟩, s3)

/-- Rust `get_property_raw_byte_cursor::<T>` (src/fbx/property.rs).
`elemSize` is `size_of::<T>()`; the result is the byte buffer of the
fresh `Cursor` (position 0) together with the advanced outer stream.
If `encoding == 0` it reads `size_of::<T>() * length` raw bytes; else
it reads `compressed_length` bytes and zlib-inflates them (`inflate` is
the external inflate routine; its failure is unwrapped, i.e. a panic). -/
def get_property_raw_byte_cursor (inflate : List Nat → Option (List Nat))
    (elemSize : Nat) (s : ByteStream) : ParseResult (List Nat × ByteStream) :=
  match parse_array_metadata s with
  | .error e => .error e
  | .ok (metadata, s1) =>
    if metadata.encoding = 0 then
      match s1.readN (elemSize * metadata.length) with
      | none => .error .IOError
      | some (array, s2) => .ok (array, s2)
    else
      match s1.readN metadata.compressed_length with
      | none => .error .IOError
      | some (deflated_data, s2) =>
        match inflate deflated_data with
        | none => .error (.Panic "called Option::unwrap() on a None value")
        | some inflated_data => .ok (inflated_data, s2)

/-- Loop body of Rust `apply_transform_on_byte_stream`: run `transform`
`n` times on the cursor, collecting results in order. -/
def transform_loop {α : Type} (transform : ByteStream → ParseResult (α × ByteStream)) :
    Nat → ByteStream → ParseResult (List α)
  | 0, _ => .ok []
  | n + 1, c =>
    match transform c with
    | .error e => .error e
    | .ok (v, c') =>
      match transform_loop transform n c' with
      | .error e => .error e
      | .ok vs => .ok (v :: vs)

/-- Rust `apply_transform_on_byte_stream::<T>` (src/fbx/property.rs): the
element count is `stream_len / size_of::<T>()` computed from the cursor's
total byte length, and `transform` is applied that many times starting at
position 0 (the cursor is always freshly created by
`get_property_raw_byte_cursor`). -/
def apply_transform_on_byte_stream {α : Type} (elemSize : Nat)
    (transform : ByteStream → ParseResult (α × ByteStream))
    (input : List Nat) : ParseResult (List α) :=
  transform_loop transform (input.length / elemSize) ⟨input, 0⟩

/-- Element transform `|x| x.read_i32::<LittleEndian>()` used by
`parse_i32_array_property`. -/
def read_i32_le (c : ByteStream) : ParseResult (Int × ByteStream) :=
  match c.readN 4 with
  | none => .error .IOError
  | some (bs, c') => .ok (toSigned 32 (leNat bs), c')

/-- Element transform `|x| x.read_i64::<LittleEndian>()` used by
`parse_i64_array_property`. -/
def read_i64_le (c : ByteStream) : ParseResult (Int × ByteStream) :=
  match c.readN 8 with
  | none => .error .IOError
  | some (bs, c') => .ok (toSigned 64 (leNat bs), c')

/-- Element transform `|x| x.read_f32::<LittleEndian>()` used by
`parse_f32_array_property` (raw 4-byte representation). -/
def read_f32_le (c : ByteStream) : ParseResult (List Nat × ByteStream) :=
  match c.readN 4 with
  | none => .error .IOError
  | some (bs, c') => .ok (bs, c')

/-- Element transform `|x| x.read_f64::<LittleEndian>()` used by
`parse_f64_array_property` (raw 8-byte representation). -/
def read_f64_le (c : ByteStream) : ParseResult (List Nat × ByteStream) :=
  match c.readN 8 with
  | none => .error .IOError
  | some (bs, c') => .ok (bs, c')

/-- Element transform `|x| x.read_u8()? == 1` used by
`parse_bool_array_property`. -/
def read_u8_bool (c : ByteStream) : ParseResult (Bool × ByteStream) :=
  match c.readN 1 with
  | none => .error .IOError
  | some (bs, c') => .ok (leNat bs == 1, c')

/-- Common shape of the five Rust `parse_*_array_property` functions
(src/fbx/property.rs): obtain the raw byte cursor, then transform it
element-wise. -/
def parse_array_property {α : Type} (inflate : List Nat → Option (List Nat))
    (elemSize : Nat) (transform : ByteStream → ParseResult (α × ByteStream))
    (s : ByteStream) : ParseResult (List α × ByteStream) :=
  match get_property_raw_byte_cursor inflate elemSize s with
  | .error e => .error e
  | .ok (cursor, s') =>
    match apply_transform_on_byte_stream elemSize transform cursor with
    | .error e => .error e
    | .ok array => .ok (array, s')

/-- Rust `parse_f32_array_property` (src/fbx/property.rs). -/
def parse_f32_array_property (inflate : List Nat → Option (List Nat))
    (s : ByteStream) : ParseResult (PropertyRecordType × ByteStream) :=
  match parse_array_property inflate 4 read_f32_le s with
  | .error e => .error e
  | .ok (array, s') => .ok (.FloatArray array, s')

/-- Rust `parse_f64_array_property` (src/fbx/property.rs). -/
def parse_f64_array_property (inflate : List Nat → Option (List Nat))
    (s : ByteStream) : ParseResult (PropertyRecordType × ByteStream) :=
  match parse_array_property inflate 8 read_f64_le s with
  | .error e => .error e
  | .ok (array, s') => .ok (.DoubleArray array, s')

/-- Rust `parse_i64_array_property` (src/fbx/property.rs). -/
def parse_i64_array_property (inflate : List Nat → Option (List Nat))
    (s : ByteStream) : ParseResult (PropertyRecordType × ByteStream) :=
  match parse_array_property inflate 8 read_i64_le s with
  | .error e => .error e
  | .ok (array, s') => .ok (.SignedInt64Array array, s')

/-- Rust `parse_i32_array_property` (src/fbx/property.rs). -/
def parse_i32_array_property (inflate : List Nat → Option (List Nat))
    (s : ByteStream) : ParseResult (PropertyRecordType × ByteStream) :=
  match parse_array_property inflate 4 read_i32_le s with
  | .error e => .error e
  | .ok (array, s') => .ok (.SignedInt32Array array, s')

/-- Rust `parse_bool_array_property` (src/fbx/property.rs);
`size_of::<bool>()` is 1. -/
def parse_bool_array_property (inflate : List Nat → Option (List Nat))
    (s : ByteStream) : ParseResult (PropertyRecordType × ByteStream) :=
  match parse_array_property inflate 1 read_u8_bool s with
  | .error e => .error e
  | .ok (array, s') => .ok (.BooleanArray array, s')

/-- Rust `parse_string_property` (src/fbx/property.rs): u32 length prefix,
that many raw bytes; the value is the prefix of those bytes up to the
first NUL byte (`position(|x| *x == 0)`), or all of them if no NUL occurs
(`unwrap_or(bytes.len())`). -/
def parse_string_property (s : ByteStream) : ParseResult (PropertyRecordType × ByteStream) :=
  match s.readU32 with
  | none => .error .IOError
  | some (length, s1) =>
    match s1.readN length with
    | none => .error .IOError
    | some (bytes, s2) =>
      let actual_string_length := (bytes.findIdx? (fun x => x == 0)).getD bytes.length
      .ok (.String (bytes.take actual_string_length), s2)

/-- Rust `parse_binary_data_property` (src/fbx/property.rs). -/
def parse_binary_data_property (s : ByteStream) : ParseResult (PropertyRecordType × ByteStream) :=
  match s.readU32 with
  | none => .error .IOError
  | some (length, s1) =>
    match s1.readN length with
    | none => .error .IOError
    | some (bytes, s2) => .ok (.BinaryData bytes, s2)

/-- Rust `parse_property` (src/fbx/property.rs): one ASCII type-tag byte,
then dispatch.  The tag byte values are the ASCII codes matched in the
source: Y=89 C=67 I=73 F=70 D=68 L=76 f=102 d=100 l=108 i=105 b=98 S=83
R=82; any other tag panics ("Unexpected type_code"). -/
def parse_property (inflate : List Nat → Option (List Nat))
    (s : ByteStream) : ParseResult (PropertyRecordType × ByteStream) :=
  match s.readU8 with
  | none => .error .IOError
  | some (type_code, s1) =>
    if type_code = 89 then parse_i16_property s1
    else if type_code = 67 then parse_bool_property s1
    else if type_code = 73 then parse_i32_property s1
    else if type_code = 70 then parse_f32_property s1
    else if type_code = 68 then parse_f64_property s1
    else if type_code = 76 then parse_i64_property s1
    else if type_code = 102 then parse_f32_array_property inflate s1
    else if type_code = 100 then parse_f64_array_property inflate s1
    else if type_code = 108 then parse_i64_array_property inflate s1
    else if type_code = 105 then parse_i32_array_property inflate s1
    else if type_code = 98 then parse_bool_array_property inflate s1
    else if type_code = 83 then parse_string_property s1
    else if type_code = 82 then parse_binary_data_property s1
    else .error (.Panic "Unexpected type_code")

/-- Rust `parse_properties` (src/fbx/property.rs): decode `num_properties`
properties in sequence. -/
def parse_properties (inflate : List Nat → Option (List Nat)) :
    Nat → ByteStream → ParseResult (List PropertyRecordType × ByteStream)
  | 0, s => .ok ([], s)
  | n + 1, s =>
    match parse_property inflate s with
    | .error e => .error e
    | .ok (p, s') =>
      match parse_properties inflate n s' with
      | .error e => .error e
      | .ok (ps, s'') => .ok (p :: ps, s'')

/-- Node record, src/fbx/node.rs `NodeRecord` (name as raw bytes). -/
inductive NodeRecord where
  | mk (name : List Nat) (properties : List PropertyRecordType)
      (nested_list : List NodeRecord)

/-- Name of a node record. -/
def NodeRecord.name : NodeRecord → List Nat
  | .mk n _ _ => n

/-- Properties of a node record. -/
def NodeRecord.properties : NodeRecord → List PropertyRecordType
  | .mk _ p _ => p

/-- Nested child records of a node record. -/
def NodeRecord.nested_list : NodeRecord → List NodeRecord
  | .mk _ _ c => c

/-- Rust `parse_string` (src/fbx/node.rs): one length byte, then that many
name bytes (UTF-8 well-formedness elided, see the file header). -/
def parse_string (s : ByteStream) : ParseResult (List Nat × ByteStream) :=
  match s.readU8 with
  | none => .error .IOError
  | some (length, s1) =>
    match s1.readN length with
    | none => .error .IOError
    | some (string_bytes, s2) => .ok (string_bytes, s2)

/-- Fixed size of the all-zero sentinel block closing a node that has
nested-child space: `size_of::<u32>() * 3 + 1` bytes. -/
def sentinel_block_length : Nat := 13

mutual

/-- Rust `parse_node` (src/fbx/node.rs).  Decodes one node record at the
current position; returns `none` for the 0-valued end-offset terminator.
`fuel` bounds the recursion depth (embedding artifact). -/
def parse_node (inflate : List Nat → Option (List Nat)) :
    Nat → Nat → ByteStream → ParseResult (Option NodeRecord × ByteStream)
  | 0, _, _ => .error .OutOfFuel
  | fuel + 1, file_length, s =>
    match s.readU32 with
    | none => .error .IOError
    | some (end_offset, s1) =>
      if end_offset = 0 then
        -- End of file
        .ok (none, s1)
      else if file_length ≤ end_offset then
        .error (.ValidationError "end offset is outside bounds")
      else
        match s1.readU32 with
        | none => .error .IOError
        | some (num_properties, s2) =>
          match s2.readU32 with
          | none => .error .IOError
          | some (property_length_bytes, s3) =>
            match parse_string s3 with
            | .error e => .error e
            | .ok (name, s4) =>
              -- property_start_offset := s4.pos
              if file_length < s4.pos + property_length_bytes then
                .error (.ValidationError "property length out of bounds")
              else
                match parse_properties inflate num_properties s4 with
                | .error e => .error e
                | .ok (properties, s5) =>
                  if property_length_bytes ≠ s5.pos - s4.pos then
                    .error (.ValidationError "did not read correct amount of bytes when parsing properties")
                  else
                    match parse_node_after_props inflate fuel file_length end_offset s5 with
                    | .error e => .error e
                    | .ok (child_nodes, s7) =>
                      if s7.pos ≠ end_offset then
                        .error (.ValidationError "end offset not reached.")
                      else
                        .ok (some (.mk name properties child_nodes), s7)
termination_by structural fuel _ _ => fuel

/-- Children-and-sentinel block of Rust `parse_node` (src/fbx/node.rs,
lines 47–69): if the position is still before `end_offset`, require at
least 13 remaining bytes, parse child nodes while the position is before
`end_offset - 13`, then read the 13 sentinel bytes and require them all
zero. -/
def parse_node_after_props (inflate : List Nat → Option (List Nat)) :
    Nat → Nat → Nat → ByteStream → ParseResult (List NodeRecord × ByteStream)
  | 0, _, _, _ => .error .OutOfFuel
  | fuel + 1, file_length, end_offset, s5 =>
    if s5.pos < end_offset then
      let remaining_byte_count := end_offset - s5.pos
      if remaining_byte_count < sentinel_block_length then
        .error (.ValidationError "insufficient amount of bytes at end of node")
      else
        match parse_children inflate fuel file_length end_offset s5 with
        | .error e => .error e
        | .ok (child_nodes, s6) =>
          match s6.readN sentinel_block_length with
          | none => .error .IOError
          | some (sentinel_block, s7) =>
            if sentinel_block.any (fun b => b ≠ 0) then
              .error (.ValidationError "sentinel block contains non-zero values")
            else
              .ok (child_nodes, s7)
    else
      .ok ([], s5)
termination_by structural fuel _ _ _ => fuel

/-- While-loop of Rust `parse_node` collecting child records as long as
the position is strictly before `end_offset - sentinel_block_length`;
terminator results (`none`) are not collected. -/
def parse_children (inflate : List Nat → Option (List Nat)) :
    Nat → Nat → Nat → ByteStream → ParseResult (List NodeRecord × ByteStream)
  | 0, _, _, _ => .error .OutOfFuel
  | fuel + 1, file_length, end_offset, s =>
    if s.pos < end_offset - sentinel_block_length then
      match parse_node inflate fuel file_length s with
      | .error e => .error e
      | .ok (node, s') =>
        match parse_children inflate fuel file_length end_offset s' with
        | .error e => .error e
        | .ok (rest, s'') =>
          match node with
          | some n => .ok (n :: rest, s'')
          | none => .ok (rest, s'')
    else
      .ok ([], s)
termination_by structural fuel _ _ _ => fuel

end

/-- Rust `parse_nodes` (src/fbx/node.rs): repeatedly decode node records
while the position is before `file_length`; stop at a terminator. -/
def parse_nodes (inflate : List Nat → Option (List Nat)) :
    Nat → Nat → ByteStream → ParseResult (List NodeRecord × ByteStream)
  | 0, _, _ => .error .OutOfFuel
  | fuel + 1, file_length, s =>
    if s.pos < file_length then
      match parse_node inflate fuel file_length s with
      | .error e => .error e
      | .ok (some node, s') =>
        match parse_nodes inflate fuel file_length s' with
        | .error e => .error e
        | .ok (rest, s'') => .ok (node :: rest, s'')
      | .ok (none, s') => .ok ([], s')
    else
      .ok ([], s)

/-- Byte list of a text literal (each character's code point; all names
used here are ASCII). -/
def strBytes (t : String) : List Nat := t.data.map Char.toNat

/-- Rust `NodeCollection::get` (src/fbx/node_collection.rs): the first
sibling record stored under `name`, or `none` (`Err(NoSuchNode)`) if the
key is absent.  A `NodeCollection` built by inserting siblings in order
is modelled by the sibling list itself; multimap per-key order is the
list order. -/
def collection_get (nodes : List NodeRecord) (name : List Nat) : Option NodeRecord :=
  nodes.find? (fun n => n.name == name)

/-- Rust `NodeCollection::get_multiple` (src/fbx/node_collection.rs),
i.e. `MultiMap::get_vec`: all sibling records stored under `name` in
insertion order, or `none` if the key was never inserted. -/
def collection_get_multiple (nodes : List NodeRecord) (name : List Nat) :
    Option (List NodeRecord) :=
  match nodes.filter (fun n => n.name == name) with
  | [] => none
  | v => some v

/-- Face, src/scene/mesh.rs: an ordered list of vertex indices. -/
structure Face where
  indices : List Int
deriving DecidableEq, Repr

/-- Mesh, src/scene/mesh.rs.  A vertex is a `glm::Vec3`, i.e. three f32
components, each carried as its raw 4-byte representation. -/
structure Mesh where
  name : List Nat
  vertices : List (List Nat × List Nat × List Nat)
  faces : List Face
deriving DecidableEq, Repr

/-- Scene, src/scene.rs: the ordered list of meshes. -/
structure Scene where
  meshes : List Mesh
deriving DecidableEq, Repr

/-- Body of Rust `FaceIterator::next` (src/fbx/importer.rs): accumulate
indices from the iterator; a negative value is replaced by `index ^ -1`
(bitwise complement) and ends the accumulation.  Returns the accumulated
face indices and the unconsumed remainder of the index list. -/
def face_next_loop : List Int → List Int → (List Int × List Int)
  | acc, [] => (acc, [])
  | acc, index :: rest =>
    if index < 0 then (acc ++ [Int.xor index (-1)], rest)
    else face_next_loop (acc ++ [index]) rest

/-- Rust `FaceIterator::next` (src/fbx/importer.rs): `none` iff nothing
was accumulated (iterator exhausted), else one `Face` plus the remaining
indices. -/
def face_iterator_next (indices : List Int) : Option (Face × List Int) :=
  if (face_next_loop [] indices).1.isEmpty then none
  else some (⟨(face_next_loop [] indices).1⟩, (face_next_loop [] indices).2)

/-- The remainder returned by `face_next_loop` is never longer than its
input. -/
theorem face_next_loop_rest_le (l acc : List Int) :
    (face_next_loop acc l).2.length ≤ l.length := by
  induction l generalizing acc with
  | nil => simp [face_next_loop]
  | cons x rest ih =>
    simp only [face_next_loop]
    split
    · simp
    · exact le_trans (ih _) (Nat.le_succ _)

/-- The accumulator of `face_next_loop` only grows. -/
theorem face_next_loop_acc_extends (l acc : List Int) :
    ∃ t, (face_next_loop acc l).1 = acc ++ t := by
  induction l generalizing acc with
  | nil => exact ⟨[], by simp [face_next_loop]⟩
  | cons x rest ih =>
    simp only [face_next_loop]
    split
    · exact ⟨[Int.xor x (-1)], rfl⟩
    · obtain ⟨t, ht⟩ := ih (acc ++ [x])
      exact ⟨[x] ++ t, by simp [ht]⟩

/-- On a nonempty list, `face_next_loop` consumes at least one element
and accumulates at least one index. -/
theorem face_next_loop_progress (x : Int) (rest acc : List Int) :
    (face_next_loop acc (x :: rest)).1.length > acc.length ∧
    (face_next_loop acc (x :: rest)).2.length < (x :: rest).length := by
  simp only [face_next_loop]
  split
  · constructor
    · simp
    · simp [Nat.lt_succ_of_le]
  · constructor
    · obtain ⟨t, ht⟩ := face_next_loop_acc_extends rest (acc ++ [x])
      rw [ht]
      simp only [List.length_append, List.length_cons]
      omega
    · exact Nat.lt_succ_of_le (face_next_loop_rest_le rest (acc ++ [x]))

/-- A successful `face_iterator_next` strictly shrinks the index list. -/
theorem face_iterator_next_shrinks {l rest : List Int} {f : Face}
    (h : face_iterator_next l = some (f, rest)) : rest.length < l.length := by
  cases l with
  | nil =>
    simp [face_iterator_next, face_next_loop] at h
  | cons x xs =>
    unfold face_iterator_next at h
    by_cases he : (face_next_loop [] (x :: xs)).1.isEmpty
    · simp [he] at h
    · simp only [he, if_neg, Bool.false_eq_true, not_false_eq_true, if_false,
        Option.some.injEq, Prod.mk.injEq] at h
      rw [← h.2]
      exact (face_next_loop_progress x xs []).2

/-- Fuelled form of the `for face in FaceIterator::from(...)` loop of
Rust `get_faces` (src/fbx/importer.rs): collect faces until the iterator
is exhausted.  Each successful `face_iterator_next` consumes at least one
index (`face_iterator_next_shrinks`), so fuel `l.length` always
suffices. -/
def face_loop : Nat → List Int → List Face
  | 0, _ => []
  | fuel + 1, l =>
    match face_iterator_next l with
    | none => []
    | some (f, rest) => f :: face_loop fuel rest

/-- The `for face in FaceIterator::from(...)` loop of Rust `get_faces`
(src/fbx/importer.rs), with the always-sufficient fuel `l.length`. -/
def faces_from (l : List Int) : List Face := face_loop l.length l

/-- Fuel irrelevance for `face_loop`: any fuel of at least `l.length`
gives the same faces, so `faces_from` is the loop's true semantics. -/
theorem face_loop_fuel_irrelevant (fuel : Nat) :
    ∀ l : List Int, l.length ≤ fuel → face_loop fuel l = faces_from l := by
  induction fuel using Nat.strong_induction_on with
  | _ fuel ih =>
    intro l hl
    cases fuel with
    | zero =>
      rw [List.length_eq_zero.mp (Nat.le_zero.mp hl)]
      rfl
    | succ fuel =>
      unfold faces_from
      cases hl' : l.length with
      | zero =>
        rw [List.length_eq_zero.mp hl']
        rfl
      | succ n =>
        simp only [face_loop]
        cases hn : face_iterator_next l with
        | none => rfl
        | some p =>
          obtain ⟨f, rest⟩ := p
          have hshrink : rest.length < l.length := face_iterator_next_shrinks hn
          have h1 : face_loop fuel rest = faces_from rest :=
            ih fuel (Nat.lt_succ_self fuel) rest (by omega)
          have h2 : face_loop n rest = faces_from rest :=
            ih n (by omega) rest (by omega)
          dsimp only
          rw [h1, h2]

/-- Rust `get_faces` (src/fbx/importer.rs): look up the
`PolygonVertexIndex` child (panic "sssss" if absent), require its first
property to be a signed int32 array (panic otherwise; indexing
`properties[0]` on an empty vector also panics), then run the face
iterator.  Panics are modelled as `Except.error` with the panic text. -/
def get_faces (geometry : NodeRecord) : Except String (List Face) :=
  match collection_get geometry.nested_list (strBytes "PolygonVertexIndex") with
  | none => .error "sssss"
  | some indices_node =>
    match indices_node.properties[0]? with
    | none => .error "index out of bounds"
    | some (PropertyRecordType.SignedInt32Array indices) => .ok (faces_from indices)
    | some _ => .error "Unexpected data in indices node"

/-- The `Tuples3` adapter of src/fbx/importer.rs: group consecutive
triples, discarding a trailing partial group. -/
def tuples3 {α : Type} : List α → List (α × α × α)
  | t1 :: t2 :: t3 :: rest => (t1, t2, t3) :: tuples3 rest
  | _ => []

/-- Per-`Geometry`-node body of the `for geom in geometry` loop inside
Rust `import` (src/fbx/importer.rs).  `conv` is the `as f32` cast on the
raw f64 bytes (external floating-point operation).  Result `none` means
the node was skipped (`continue`); `Except.error` models a panic. -/
def process_geometry (conv : List Nat → List Nat) (geom : NodeRecord) :
    Except String (Option Mesh) :=
  -- 3rd property should be "Mesh"
  if geom.properties.length < 3 then .ok none
  else
    match geom.properties[1]? with
    | some (PropertyRecordType.String name) =>
      let object_type : Option (List Nat) :=
        match geom.properties[2]? with
        | some (PropertyRecordType.String t) => some t
        | _ => none
      if object_type != some (strBytes "Mesh") then .ok none
      else
        match collection_get geom.nested_list (strBytes "Vertices") with
        | none => .error "Errorrrrr!"
        | some vertices_node =>
          match vertices_node.properties[0]? with
          | none => .error "index out of bounds"
          | some (PropertyRecordType.DoubleArray coordinates) =>
            let vertices := tuples3 (coordinates.map conv)
            match get_faces geom with
            | .error e => .error e
            | .ok faces => .ok (some ⟨name, vertices, faces⟩)
          | some _ => .error "Unexpected data in vertex node"
    | _ => .error "called Option::unwrap() on a None value"

/-- The `for geom in geometry.unwrap()` loop of Rust `import`
(src/fbx/importer.rs): process each geometry node in order, keeping the
meshes of the nodes that were not skipped. -/
def import_geoms (conv : List Nat → List Nat) :
    List NodeRecord → Except String (List Mesh)
  | [] => .ok []
  | g :: rest =>
    match process_geometry conv g with
    | .error e => .error e
    | .ok m =>
      match import_geoms conv rest with
      | .error e => .error e
      | .ok ms =>
        .ok (match m with
             | some mesh => mesh :: ms
             | none => ms)

/-- Rust `import` (src/fbx/importer.rs): look up `Objects` in the root
collection (panic "woop" if absent); `get_multiple("Geometry")` on its
children; if that is `None`, return `None` ("No meshes to import"); else
build the meshes and return `Some(Scene)`.  `Except.error` models a
panic. -/
def import_scene (conv : List Nat → List Nat) (nodes : List NodeRecord) :
    Except String (Option Scene) :=
  match collection_get nodes (strBytes "Objects") with
  | none => .error "woop"
  | some objects_node =>
    match collection_get_multiple objects_node.nested_list (strBytes "Geometry") with
    | none =>
      -- No meshes to import
      .ok none
    | some geometry =>
      match import_geoms conv geometry with
      | .error e => .error e
      | .ok meshes => .ok (some ⟨meshes⟩)

/-! Helper instances and lemmas shared by several claim proofs. -/

/-- Decidable equality for `Except` results, so concrete decoder runs can
be checked by `decide`. -/
instance {ε α : Type} [DecidableEq ε] [DecidableEq α] :
    DecidableEq (Except ε α)
  | .error e, .error f =>
    match decEq e f with
    | isTrue h => isTrue (by rw [h])
    | isFalse h => isFalse (by intro hc; cases hc; exact h rfl)
  | .error _, .ok _ => isFalse (by intro hc; cases hc)
  | .ok _, .error _ => isFalse (by intro hc; cases hc)
  | .ok a, .ok b =>
    match decEq a b with
    | isTrue h => isTrue (by rw [h])
    | isFalse h => isFalse (by intro hc; cases hc; exact h rfl)

/-- Accumulating `face_next_loop` over a run of non-negative indices
closed by a negative one: the accumulator gains the run and the
complemented terminator, and exactly the run and terminator are
consumed. -/
theorem face_next_loop_append (pre : List Int) (v : Int) (rest acc : List Int)
    (hpre : ∀ x ∈ pre, 0 ≤ x) (hv : v < 0) :
    face_next_loop acc (pre ++ v :: rest) = (acc ++ (pre ++ [Int.xor v (-1)]), rest) := by
  induction pre generalizing acc with
  | nil =>
    simp only [List.nil_append, face_next_loop, if_pos hv]
  | cons x xs ih =>
    have hx : 0 ≤ x := hpre x (by simp)
    simp only [List.cons_append, face_next_loop, if_neg (not_lt.mpr hx), List.append_eq]
    rw [ih (acc ++ [x]) (fun y hy => hpre y (by simp [hy]))]
    simp

/-- Every face that `face_loop` emits has a nonempty index list. -/
theorem face_loop_indices_ne_nil (fuel : Nat) (l : List Int) (f : Face)
    (hf : f ∈ face_loop fuel l) : f.indices ≠ [] := by
  induction fuel generalizing l with
  | zero => simp [face_loop] at hf
  | succ fuel ih =>
    simp only [face_loop] at hf
    revert hf
    unfold face_iterator_next
    by_cases he : (face_next_loop [] l).1.isEmpty
    · rw [if_pos he]
      intro hf
      simp at hf
    · rw [if_neg he]
      intro hf
      rcases List.mem_cons.mp hf with h | h
      · rw [h]
        simpa [List.isEmpty_iff] using he
      · exact ih _ h

/-- Characterisation of a successful `readN`: same data, position advanced
by `n`, and exactly the `n` bytes at the old position returned. -/
theorem readN_spec {s : ByteStream} {n : Nat} {bs : List Nat} {s' : ByteStream}
    (h : s.readN n = some (bs, s')) :
    s'.data = s.data ∧ s'.pos = s.pos + n ∧ bs = (s.data.drop s.pos).take n ∧
    s.pos + n ≤ s.data.length ∧ bs.length = n := by
  unfold ByteStream.readN at h
  by_cases hle : s.pos + n ≤ s.data.length
  · rw [if_pos hle] at h
    simp only [Option.some.injEq, Prod.mk.injEq] at h
    obtain ⟨hbs, hs'⟩ := h
    subst hbs
    subst hs'
    refine ⟨rfl, rfl, rfl, hle, ?_⟩
    simp [List.length_take, List.length_drop]
    omega
  · rw [if_neg hle] at h
    cases h

/-- The int32 element transform consumes exactly 4 bytes whenever 4
bytes are available. -/
theorem read_i32_le_spec (c : ByteStream) (h : c.pos + 4 ≤ c.data.length) :
    read_i32_le c =
      .ok (toSigned 32 (leNat ((c.data.drop c.pos).take 4)), ⟨c.data, c.pos + 4⟩) := by
  unfold read_i32_le ByteStream.readN
  rw [if_pos h]

/-- A transform that consumes exactly `k` available bytes per element,
iterated `m` times over a cursor holding at least `m * k` bytes past the
current position, succeeds and returns exactly `m` elements. -/
theorem transform_loop_length {α : Type} (k : Nat)
    (t : ByteStream → ParseResult (α × ByteStream))
    (ht : ∀ c : ByteStream, c.pos + k ≤ c.data.length →
      ∃ v, t c = .ok (v, ⟨c.data, c.pos + k⟩)) :
    ∀ (m : Nat) (c : ByteStream), c.pos + m * k ≤ c.data.length →
      ∃ vs : List α, transform_loop t m c = .ok vs ∧ vs.length = m := by
  intro m
  induction m with
  | zero => exact fun c _ => ⟨[], rfl, rfl⟩
  | succ m ih =>
    intro c hc
    rw [Nat.succ_mul] at hc
    obtain ⟨v, hv⟩ := ht c (by omega)
    obtain ⟨vs, hvs, hlen⟩ := ih ⟨c.data, c.pos + k⟩ (by simp; omega)
    refine ⟨v :: vs, ?_, by simp [hlen]⟩
    simp [transform_loop, hv, hvs]

/-- The byte index of the first NUL (or the whole length if none) cuts
the list exactly where `takeWhile (· != 0)` stops. -/
theorem take_first_zero_eq_takeWhile (l : List Nat) :
    l.take ((l.findIdx? (fun x => x == 0)).getD l.length) =
      l.takeWhile (fun b => b != 0) := by
  induction l with
  | nil => rfl
  | cons b rest ih =>
    by_cases hb : b = 0
    · subst hb
      simp [List.findIdx?_cons, List.takeWhile_cons]
    · have hb' : (b == 0) = false := by simp [hb]
      have hbne : (b != 0) = true := by simp [hb]
      simp only [List.findIdx?_cons, hb', Bool.false_eq_true, if_false,
        List.findIdx?_succ, List.takeWhile_cons, hbne, if_true]
      cases h : rest.findIdx? fun x => x == 0 with
      | none =>
        rw [h] at ih
        simp only [Option.getD_none] at ih
        simp only [Option.map_none', Option.getD_none, List.length_cons,
          List.take_succ_cons]
        rw [ih]
      | some i =>
        rw [h] at ih
        simp only [Option.getD_some] at ih
        simp only [Option.map_some', Option.getD_some, List.take_succ_cons]
        rw [ih]

/-! Theorems settling the claims. -/

/-- C2: polygon-index decoding accumulates non-negative indices into the
current face until a negative value `v` appears; `v XOR -1` is appended
as the face's last index and closes the face, the next index starting a
new face; `[0, 1, -3, 3, 4, -6]` decodes to faces `[0,1,2]` and
`[3,4,5]`, and an empty index array yields no faces.  The last conjunct
connects this to `get_faces` on a Geometry node. -/
theorem c2_face_decoding :
    faces_from ([] : List Int) = [] ∧
    (∀ (pre : List Int) (v : Int) (rest : List Int),
      (∀ x ∈ pre, 0 ≤ x) → v < 0 →
      faces_from (pre ++ v :: rest) =
        Face.mk (pre ++ [Int.xor v (-1)]) :: faces_from rest) ∧
    faces_from [0, 1, -3, 3, 4, -6] = [⟨[0, 1, 2]⟩, ⟨[3, 4, 5]⟩] ∧
    (∀ (geom node : NodeRecord) (l : List Int),
      collection_get geom.nested_list (strBytes "PolygonVertexIndex") = some node →
      node.properties[0]? = some (.SignedInt32Array l) →
      get_faces geom = .ok (faces_from l)) := by
  refine ⟨rfl, ?_, by decide, ?_⟩
  · intro pre v rest hpre hv
    have hsplit := face_next_loop_append pre v rest [] hpre hv
    have hlen : (pre ++ v :: rest).length = (pre.length + rest.length) + 1 := by
      simp [List.length_append]
      omega
    unfold faces_from
    rw [hlen]
    simp only [face_loop]
    unfold face_iterator_next
    rw [hsplit]
    simp only [List.nil_append, List.isEmpty_iff]
    rw [if_neg (by simp)]
    dsimp only
    rw [face_loop_fuel_irrelevant (pre.length + rest.length) rest (by omega),
      face_loop_fuel_irrelevant rest.length rest (le_refl _)]
  · intro geom node l hget hprop
    unfold get_faces
    rw [hget]
    dsimp only
    rw [hprop]

/-- C2 witness: the general conjunct applied at the concrete run
`[0, 1]` closed by `-3` with remainder `[7]`. -/
theorem c2_face_decoding_witness :
    faces_from ([0, 1] ++ (-3 : Int) :: [7]) =
      Face.mk ([0, 1] ++ [Int.xor (-3) (-1)]) :: faces_from [7] :=
  c2_face_decoding.2.1 [0, 1] (-3) [7] (by decide) (by decide)

/-- C3 counterexample: with `Objects` present but owning zero `Geometry`
children, `import` returns `None` (no scene at all), not a `Scene` with
an empty mesh list as the claim states. -/
theorem c3_counterexample :
    import_scene (fun _ => []) [NodeRecord.mk (strBytes "Objects") [] []] = .ok none ∧
    import_scene (fun _ => []) [NodeRecord.mk (strBytes "Objects") [] []] ≠
      .ok (some (Scene.mk [])) :=
  ⟨rfl, by intro h; cases h⟩

/-- C3 amended: for every root collection in which `Objects` exists but
has zero `Geometry` children, the import finishes without a panic and
returns `None` (no scene) -- a non-error outcome, but not a `Scene` with
an empty mesh list. -/
theorem c3_no_geometry_returns_none (conv : List Nat → List Nat)
    (nodes : List NodeRecord) (obj : NodeRecord)
    (hobj : collection_get nodes (strBytes "Objects") = some obj)
    (hgeo : collection_get_multiple obj.nested_list (strBytes "Geometry") = none) :
    import_scene conv nodes = .ok none := by
  unfold import_scene
  rw [hobj]
  dsimp only
  rw [hgeo]

/-- C3 witness: the amended theorem applied to the concrete collection
holding one childless `Objects` node. -/
theorem c3_no_geometry_returns_none_witness :
    import_scene (fun _ => [0, 0, 0, 0]) [NodeRecord.mk (strBytes "Objects") [] []] = .ok none :=
  c3_no_geometry_returns_none (fun _ => [0, 0, 0, 0])
    [NodeRecord.mk (strBytes "Objects") [] []]
    (NodeRecord.mk (strBytes "Objects") [] []) rfl rfl

/-- C9 counterexample: the polygon index array `[-1]` produces the
single face `[0]`, whose index list has length 1 < 3, through
`get_faces` on a concrete Geometry node -- so a constructed face may
have fewer than 3 vertex indices. -/
theorem c9_counterexample :
    get_faces (NodeRecord.mk (strBytes "Geometry") []
        [NodeRecord.mk (strBytes "PolygonVertexIndex")
          [.SignedInt32Array [-1]] []]) =
      .ok [Face.mk [0]] ∧ (Face.mk [0]).indices.length < 3 :=
  ⟨rfl, by decide⟩

/-- C9 amended: every face the importer produces has at least 1 vertex
index (a nonempty index list); faces of length 1 or 2 are possible, so
only nonemptiness -- not the claimed minimum of 3 -- is guaranteed. -/
theorem c9_faces_nonempty (l : List Int) (f : Face)
    (hf : f ∈ faces_from l) : f.indices ≠ [] :=
  face_loop_indices_ne_nil l.length l f hf

/-- C9 witness: the amended theorem applied to the face decoded from
`[-1]`. -/
theorem c9_faces_nonempty_witness : (Face.mk [0]).indices ≠ [] :=
  c9_faces_nonempty [-1] (Face.mk [0]) (by decide)

/-- C10: when a Geometry node has at least 3 properties and its 2nd
property is not a String value, the import aborts with the
`Option::unwrap` panic while extracting the mesh name -- before the 3rd
property is examined, hence even when the node would otherwise be
silently skipped.  No hypothesis constrains the 3rd property. -/
theorem c10_name_unwrap_panics (conv : List Nat → List Nat)
    (nodes : List NodeRecord) (obj geom : NodeRecord) (rest : List NodeRecord)
    (p : PropertyRecordType)
    (hobj : collection_get nodes (strBytes "Objects") = some obj)
    (hgeo : collection_get_multiple obj.nested_list (strBytes "Geometry") =
      some (geom :: rest))
    (hlen : 3 ≤ geom.properties.length)
    (hp : geom.properties[1]? = some p)
    (hstr : ∀ bs, p ≠ .String bs) :
    import_scene conv nodes = .error "called Option::unwrap() on a None value" := by
  have hproc : process_geometry conv geom =
      .error "called Option::unwrap() on a None value" := by
    unfold process_geometry
    rw [if_neg (not_lt.mpr hlen), hp]
    cases p with
    | String bs => exact absurd rfl (hstr bs)
    | _ => rfl
  unfold import_scene
  rw [hobj]
  dsimp only
  rw [hgeo]
  dsimp only
  simp only [import_geoms, hproc]

/-- C10 witness: a concrete Geometry node whose 2nd property is an
int32 scalar and whose 3rd property is not the string "Mesh" (it is an
int16), showing the panic fires before the skip test. -/
theorem c10_name_unwrap_panics_witness :
    import_scene (fun _ => [])
      [NodeRecord.mk (strBytes "Objects") []
        [NodeRecord.mk (strBytes "Geometry")
          [.SignedInt64 1, .SignedInt32 2, .SignedInt16 3] []]] =
      .error "called Option::unwrap() on a None value" :=
  c10_name_unwrap_panics (fun _ => [])
    [NodeRecord.mk (strBytes "Objects") []
      [NodeRecord.mk (strBytes "Geometry")
        [.SignedInt64 1, .SignedInt32 2, .SignedInt16 3] []]]
    (NodeRecord.mk (strBytes "Objects") []
      [NodeRecord.mk (strBytes "Geometry")
        [.SignedInt64 1, .SignedInt32 2, .SignedInt16 3] []])
    (NodeRecord.mk (strBytes "Geometry")
      [.SignedInt64 1, .SignedInt32 2, .SignedInt16 3] [])
    [] (.SignedInt32 2) rfl rfl (by decide) rfl (fun bs h => by cases h)

/-- C8: a decoded string property is the prefix of the length-prefixed
byte payload up to but excluding the first NUL byte (the whole payload
if no NUL occurs): exactly `takeWhile (· != 0)` of the payload, so no
byte at or after the first NUL appears; in particular the payload
"Model\0\0Mesh" decodes to "Model". -/
theorem c8_string_nul_truncation (s : ByteStream) (length : Nat)
    (bytes : List Nat) (s1 s2 : ByteStream)
    (h1 : s.readU32 = some (length, s1))
    (h2 : s1.readN length = some (bytes, s2)) :
    parse_string_property s =
      .ok (.String (bytes.takeWhile (fun b => b != 0)), s2) ∧
    parse_string_property
        ⟨[11, 0, 0, 0] ++ (strBytes "Model" ++ [0, 0] ++ strBytes "Mesh"), 0⟩ =
      .ok (.String (strBytes "Model"),
        ⟨[11, 0, 0, 0] ++ (strBytes "Model" ++ [0, 0] ++ strBytes "Mesh"), 15⟩) := by
  constructor
  · unfold parse_string_property
    rw [h1]
    dsimp only
    rw [h2]
    dsimp only
    rw [take_first_zero_eq_takeWhile]
  · decide

/-- C8 witness: the theorem applied to the concrete stream carrying the
"Model\0\0Mesh" payload. -/
theorem c8_string_nul_truncation_witness :
    parse_string_property
        ⟨[11, 0, 0, 0] ++ (strBytes "Model" ++ [0, 0] ++ strBytes "Mesh"), 0⟩ =
      .ok (.String ((strBytes "Model" ++ [0, 0] ++ strBytes "Mesh").takeWhile
          (fun b => b != 0)),
        ⟨[11, 0, 0, 0] ++ (strBytes "Model" ++ [0, 0] ++ strBytes "Mesh"), 15⟩) :=
  (c8_string_nul_truncation
    ⟨[11, 0, 0, 0] ++ (strBytes "Model" ++ [0, 0] ++ strBytes "Mesh"), 0⟩
    11 (strBytes "Model" ++ [0, 0] ++ strBytes "Mesh")
    ⟨[11, 0, 0, 0] ++ (strBytes "Model" ++ [0, 0] ++ strBytes "Mesh"), 4⟩
    ⟨[11, 0, 0, 0] ++ (strBytes "Model" ++ [0, 0] ++ strBytes "Mesh"), 15⟩
    (by decide) (by decide)).1

/-- C1: for a typed-array property whose metadata encoding is non-zero,
the decoder reads exactly `compressed_length` raw bytes, inflates them,
and decodes `inflated_byte_length / element_size` elements -- the
declared `length` field does not enter this branch (none of the
conclusions mention `md.length`); with encoding zero the declared length
is authoritative: exactly `element_size * length` raw bytes are read and
exactly `length` elements are decoded.  `t` is the per-element
transform; the hypothesis `ht` states it consumes exactly `k` available
bytes, as each `read_*::<LittleEndian>` call does. -/
theorem c1_array_element_count {α : Type} (inflate : List Nat → Option (List Nat))
    (k : Nat) (t : ByteStream → ParseResult (α × ByteStream))
    (hk : 0 < k)
    (ht : ∀ c : ByteStream, c.pos + k ≤ c.data.length →
      ∃ v, t c = .ok (v, ⟨c.data, c.pos + k⟩))
    (s : ByteStream) (md : ArrayMetaData) (s1 : ByteStream)
    (hmd : parse_array_metadata s = .ok (md, s1)) :
    (md.encoding ≠ 0 →
      ∀ (deflated : List Nat) (s2 : ByteStream) (inflated : List Nat),
        s1.readN md.compressed_length = some (deflated, s2) →
        inflate deflated = some inflated →
        get_property_raw_byte_cursor inflate k s = .ok (inflated, s2) ∧
        s2.pos = s1.pos + md.compressed_length ∧
        ∃ vs, parse_array_property inflate k t s = .ok (vs, s2) ∧
          vs.length = inflated.length / k) ∧
    (md.encoding = 0 →
      ∀ (bytes : List Nat) (s2 : ByteStream),
        s1.readN (k * md.length) = some (bytes, s2) →
        get_property_raw_byte_cursor inflate k s = .ok (bytes, s2) ∧
        s2.pos = s1.pos + k * md.length ∧
        ∃ vs, parse_array_property inflate k t s = .ok (vs, s2) ∧
          vs.length = md.length) := by
  constructor
  · intro henc deflated s2 inflated hread hinf
    have hcur : get_property_raw_byte_cursor inflate k s = .ok (inflated, s2) := by
      unfold get_property_raw_byte_cursor
      rw [hmd]
      dsimp only
      rw [if_neg henc, hread]
      dsimp only
      rw [hinf]
    refine ⟨hcur, (readN_spec hread).2.1, ?_⟩
    obtain ⟨vs, hvs, hlen⟩ := transform_loop_length k t ht (inflated.length / k)
      ⟨inflated, 0⟩ (by simpa using Nat.div_mul_le_self inflated.length k)
    refine ⟨vs, ?_, hlen⟩
    unfold parse_array_property
    rw [hcur]
    dsimp only
    unfold apply_transform_on_byte_stream
    rw [hvs]
  · intro henc bytes s2 hread
    have hcur : get_property_raw_byte_cursor inflate k s = .ok (bytes, s2) := by
      unfold get_property_raw_byte_cursor
      rw [hmd]
      dsimp only
      rw [if_pos henc, hread]
    have hblen : bytes.length = k * md.length := (readN_spec hread).2.2.2.2
    refine ⟨hcur, (readN_spec hread).2.1, ?_⟩
    obtain ⟨vs, hvs, hlen⟩ := transform_loop_length k t ht (bytes.length / k)
      ⟨bytes, 0⟩ (by simpa using Nat.div_mul_le_self bytes.length k)
    refine ⟨vs, ?_, ?_⟩
    · unfold parse_array_property
      rw [hcur]
      dsimp only
      unfold apply_transform_on_byte_stream
      rw [hvs]
    · rw [hlen, hblen, Nat.mul_div_cancel_left md.length hk]

/-- C1 witness: an int32 array with declared length 99 but encoding 1
and an 8-byte inflation result decodes exactly 8 / 4 = 2 elements; the
declared 99 is ignored. -/
theorem c1_array_element_count_witness :
    ∃ vs, parse_array_property (fun _ => some [1, 0, 0, 0, 2, 0, 0, 0]) 4 read_i32_le
        ⟨[99, 0, 0, 0, 1, 0, 0, 0, 3, 0, 0, 0, 9, 9, 9], 0⟩ =
      .ok (vs, ⟨[99, 0, 0, 0, 1, 0, 0, 0, 3, 0, 0, 0, 9, 9, 9], 15⟩) ∧
      vs.length = 2 :=
  ((c1_array_element_count (fun _ => some [1, 0, 0, 0, 2, 0, 0, 0]) 4 read_i32_le
    (by decide)
    (fun c h => ⟨toSigned 32 (leNat ((c.data.drop c.pos).take 4)), read_i32_le_spec c h⟩)
    ⟨[99, 0, 0, 0, 1, 0, 0, 0, 3, 0, 0, 0, 9, 9, 9], 0⟩
    ⟨99, 1, 3⟩
    ⟨[99, 0, 0, 0, 1, 0, 0, 0, 3, 0, 0, 0, 9, 9, 9], 12⟩
    (by decide)).1
    (by decide) [9, 9, 9]
    ⟨[99, 0, 0, 0, 1, 0, 0, 0, 3, 0, 0, 0, 9, 9, 9], 15⟩
    [1, 0, 0, 0, 2, 0, 0, 0]
    (by decide) rfl).2.2

/-- C7: an uncompressed typed array (encoding 0, raw payload `bytes`)
and a zlib-compressed typed array (encoding non-zero, payload whose
inflation is that same `bytes`) decode to identical value sequences, for
any element size and element transform. -/
theorem c7_compressed_uncompressed_agree {α : Type}
    (inflate : List Nat → Option (List Nat)) (k : Nat)
    (t : ByteStream → ParseResult (α × ByteStream))
    (sA sB : ByteStream) (mdA mdB : ArrayMetaData) (sA1 sB1 : ByteStream)
    (bytes deflated : List Nat) (sA2 sB2 : ByteStream)
    (hmdA : parse_array_metadata sA = .ok (mdA, sA1))
    (hencA : mdA.encoding = 0)
    (hreadA : sA1.readN (k * mdA.length) = some (bytes, sA2))
    (hmdB : parse_array_metadata sB = .ok (mdB, sB1))
    (hencB : mdB.encoding ≠ 0)
    (hreadB : sB1.readN mdB.compressed_length = some (deflated, sB2))
    (hinf : inflate deflated = some bytes) :
    (parse_array_property inflate k t sA).map Prod.fst =
      (parse_array_property inflate k t sB).map Prod.fst := by
  have hcurA : get_property_raw_byte_cursor inflate k sA = .ok (bytes, sA2) := by
    unfold get_property_raw_byte_cursor
    rw [hmdA]
    dsimp only
    rw [if_pos hencA, hreadA]
  have hcurB : get_property_raw_byte_cursor inflate k sB = .ok (bytes, sB2) := by
    unfold get_property_raw_byte_cursor
    rw [hmdB]
    dsimp only
    rw [if_neg hencB, hreadB]
    dsimp only
    rw [hinf]
  unfold parse_array_property
  rw [hcurA, hcurB]
  dsimp only
  cases apply_transform_on_byte_stream k t bytes with
  | error e => rfl
  | ok vs => rfl

/-- C7 witness: the int32 sequence `[0, 1, 2]` stored uncompressed
(declared length 3) and zlib-compressed (the 15-byte zlib payload of the
repository's own test) decode to the same value sequence. -/
theorem c7_compressed_uncompressed_agree_witness :
    (parse_array_property
        (fun l => if l = [120, 156, 99, 0, 2, 70, 32, 102, 2, 98, 0, 0, 28, 0, 4]
                  then some [0, 0, 0, 0, 1, 0, 0, 0, 2, 0, 0, 0] else none)
        4 read_i32_le
        ⟨[3, 0, 0, 0, 0, 0, 0, 0, 0, 0, 0, 0,
          0, 0, 0, 0, 1, 0, 0, 0, 2, 0, 0, 0], 0⟩).map Prod.fst =
      (parse_array_property
        (fun l => if l = [120, 156, 99, 0, 2, 70, 32, 102, 2, 98, 0, 0, 28, 0, 4]
                  then some [0, 0, 0, 0, 1, 0, 0, 0, 2, 0, 0, 0] else none)
        4 read_i32_le
        ⟨[0, 0, 0, 0, 1, 0, 0, 0, 15, 0, 0, 0,
          120, 156, 99, 0, 2, 70, 32, 102, 2, 98, 0, 0, 28, 0, 4], 0⟩).map Prod.fst :=
  c7_compressed_uncompressed_agree
    (fun l => if l = [120, 156, 99, 0, 2, 70, 32, 102, 2, 98, 0, 0, 28, 0, 4]
              then some [0, 0, 0, 0, 1, 0, 0, 0, 2, 0, 0, 0] else none)
    4 read_i32_le
    ⟨[3, 0, 0, 0, 0, 0, 0, 0, 0, 0, 0, 0,
      0, 0, 0, 0, 1, 0, 0, 0, 2, 0, 0, 0], 0⟩
    ⟨[0, 0, 0, 0, 1, 0, 0, 0, 15, 0, 0, 0,
      120, 156, 99, 0, 2, 70, 32, 102, 2, 98, 0, 0, 28, 0, 4], 0⟩
    ⟨3, 0, 0⟩ ⟨0, 1, 15⟩
    ⟨[3, 0, 0, 0, 0, 0, 0, 0, 0, 0, 0, 0,
      0, 0, 0, 0, 1, 0, 0, 0, 2, 0, 0, 0], 12⟩
    ⟨[0, 0, 0, 0, 1, 0, 0, 0, 15, 0, 0, 0,
      120, 156, 99, 0, 2, 70, 32, 102, 2, 98, 0, 0, 28, 0, 4], 12⟩
    [0, 0, 0, 0, 1, 0, 0, 0, 2, 0, 0, 0]
    [120, 156, 99, 0, 2, 70, 32, 102, 2, 98, 0, 0, 28, 0, 4]
    ⟨[3, 0, 0, 0, 0, 0, 0, 0, 0, 0, 0, 0,
      0, 0, 0, 0, 1, 0, 0, 0, 2, 0, 0, 0], 24⟩
    ⟨[0, 0, 0, 0, 1, 0, 0, 0, 15, 0, 0, 0,
      120, 156, 99, 0, 2, 70, 32, 102, 2, 98, 0, 0, 28, 0, 4], 27⟩
    (by decide) (by decide) (by decide) (by decide) (by decide) (by decide) rfl

/-- Reduction of `parse_node` through its successful header and property
stages: with the declared property byte length matching, the result is
the children-and-sentinel block followed by the final end-offset check. -/
theorem parse_node_after_props_stage (inflate : List Nat → Option (List Nat))
    (fuel file_length : Nat) (s s1 s2 s3 s4 s5 : ByteStream)
    (end_offset num_properties property_length_bytes : Nat)
    (name : List Nat) (props : List PropertyRecordType)
    (h1 : s.readU32 = some (end_offset, s1))
    (h2 : end_offset ≠ 0)
    (h3 : end_offset < file_length)
    (h4 : s1.readU32 = some (num_properties, s2))
    (h5 : s2.readU32 = some (property_length_bytes, s3))
    (h6 : parse_string s3 = .ok (name, s4))
    (h7 : s4.pos + property_length_bytes ≤ file_length)
    (h8 : parse_properties inflate num_properties s4 = .ok (props, s5))
    (h9 : property_length_bytes = s5.pos - s4.pos) :
    parse_node inflate (fuel + 1) file_length s =
      match parse_node_after_props inflate fuel file_length end_offset s5 with
      | .error e => .error e
      | .ok (child_nodes, s7) =>
        if s7.pos ≠ end_offset then
          .error (.ValidationError "end offset not reached.")
        else
          .ok (some (.mk name props child_nodes), s7) := by
  unfold parse_node
  rw [h1]
  dsimp only
  rw [if_neg h2, if_neg (not_le.mpr h3), h4]
  dsimp only
  rw [h5]
  dsimp only
  rw [h6]
  dsimp only
  rw [if_neg (not_lt.mpr h7), h8]
  dsimp only
  rw [if_neg (not_not_intro h9)]

/-- C4: when decoding a node's declared `property_count` properties
consumes a number of bytes different from the declared
`property_byte_length` (in either direction), node parsing fails with
the length-accounting validation error and no node record is produced.
The bytes consumed are `s5.pos - s4.pos`: the stream position after the
properties minus the recorded `property_start_offset`. -/
theorem c4_property_length_mismatch (inflate : List Nat → Option (List Nat))
    (fuel file_length : Nat) (s s1 s2 s3 s4 s5 : ByteStream)
    (end_offset num_properties property_length_bytes : Nat)
    (name : List Nat) (props : List PropertyRecordType)
    (h1 : s.readU32 = some (end_offset, s1))
    (h2 : end_offset ≠ 0)
    (h3 : end_offset < file_length)
    (h4 : s1.readU32 = some (num_properties, s2))
    (h5 : s2.readU32 = some (property_length_bytes, s3))
    (h6 : parse_string s3 = .ok (name, s4))
    (h7 : s4.pos + property_length_bytes ≤ file_length)
    (h8 : parse_properties inflate num_properties s4 = .ok (props, s5))
    (h9 : property_length_bytes ≠ s5.pos - s4.pos) :
    parse_node inflate (fuel + 1) file_length s =
      .error (.ValidationError
        "did not read correct amount of bytes when parsing properties") := by
  unfold parse_node
  rw [h1]
  dsimp only
  rw [if_neg h2, if_neg (not_le.mpr h3), h4]
  dsimp only
  rw [h5]
  dsimp only
  rw [h6]
  dsimp only
  rw [if_neg (not_lt.mpr h7), h8]
  dsimp only
  rw [if_pos h9]

/-- C4 witness: a node declaring a 5-byte property payload whose single
boolean property actually consumes 2 bytes is rejected with the
length-accounting validation error. -/
theorem c4_property_length_mismatch_witness :
    parse_node (fun _ => none) 2 21
      ⟨[20, 0, 0, 0, 1, 0, 0, 0, 5, 0, 0, 0, 0, 67, 1, 0, 0, 0, 0, 0, 0], 0⟩ =
      .error (.ValidationError
        "did not read correct amount of bytes when parsing properties") :=
  c4_property_length_mismatch (fun _ => none) 1 21
    ⟨[20, 0, 0, 0, 1, 0, 0, 0, 5, 0, 0, 0, 0, 67, 1, 0, 0, 0, 0, 0, 0], 0⟩
    ⟨[20, 0, 0, 0, 1, 0, 0, 0, 5, 0, 0, 0, 0, 67, 1, 0, 0, 0, 0, 0, 0], 4⟩
    ⟨[20, 0, 0, 0, 1, 0, 0, 0, 5, 0, 0, 0, 0, 67, 1, 0, 0, 0, 0, 0, 0], 8⟩
    ⟨[20, 0, 0, 0, 1, 0, 0, 0, 5, 0, 0, 0, 0, 67, 1, 0, 0, 0, 0, 0, 0], 12⟩
    ⟨[20, 0, 0, 0, 1, 0, 0, 0, 5, 0, 0, 0, 0, 67, 1, 0, 0, 0, 0, 0, 0], 13⟩
    ⟨[20, 0, 0, 0, 1, 0, 0, 0, 5, 0, 0, 0, 0, 67, 1, 0, 0, 0, 0, 0, 0], 15⟩
    20 1 5 [] [.Boolean true]
    (by decide) (by decide) (by decide) (by decide) (by decide)
    (by decide) (by decide) (by decide) (by decide)

/-- C5: a successfully decoded node record leaves the stream exactly at
the node's declared end offset (first conjunct, for any fuel and any
stream); and if the decode reaches the final check with the position
anywhere else, node parsing fails with the end-offset validation error
(second conjunct). -/
theorem c5_end_offset_reached (inflate : List Nat → Option (List Nat))
    (file_length : Nat) (s : ByteStream) (end_offset : Nat) (s1 : ByteStream)
    (h1 : s.readU32 = some (end_offset, s1)) :
    (∀ (fuel : Nat) (rec : NodeRecord) (sf : ByteStream),
      parse_node inflate fuel file_length s = .ok (some rec, sf) →
      sf.pos = end_offset) ∧
    (∀ (fuel : Nat) (s2 s3 s4 s5 s7 : ByteStream)
      (num_properties property_length_bytes : Nat) (name : List Nat)
      (props : List PropertyRecordType) (children : List NodeRecord),
      end_offset ≠ 0 → end_offset < file_length →
      s1.readU32 = some (num_properties, s2) →
      s2.readU32 = some (property_length_bytes, s3) →
      parse_string s3 = .ok (name, s4) →
      s4.pos + property_length_bytes ≤ file_length →
      parse_properties inflate num_properties s4 = .ok (props, s5) →
      property_length_bytes = s5.pos - s4.pos →
      parse_node_after_props inflate fuel file_length end_offset s5 =
        .ok (children, s7) →
      s7.pos ≠ end_offset →
      parse_node inflate (fuel + 1) file_length s =
        .error (.ValidationError "end offset not reached.")) := by
  constructor
  · intro fuel rec sf h
    cases fuel with
    | zero => simp [parse_node] at h
    | succ fuel =>
      unfold parse_node at h
      rw [h1] at h
      dsimp only at h
      by_cases h0 : end_offset = 0
      · rw [if_pos h0] at h
        simp at h
      rw [if_neg h0] at h
      by_cases hfl : file_length ≤ end_offset
      · rw [if_pos hfl] at h
        simp at h
      rw [if_neg hfl] at h
      cases hA : s1.readU32 with
      | none => rw [hA] at h; simp at h
      | some p2 =>
        obtain ⟨num_properties, s2⟩ := p2
        rw [hA] at h
        dsimp only at h
        cases hB : s2.readU32 with
        | none => rw [hB] at h; simp at h
        | some p3 =>
          obtain ⟨property_length_bytes, s3⟩ := p3
          rw [hB] at h
          dsimp only at h
          cases hC : parse_string s3 with
          | error e => rw [hC] at h; simp at h
          | ok p4 =>
            obtain ⟨name, s4⟩ := p4
            rw [hC] at h
            dsimp only at h
            by_cases hD : file_length < s4.pos + property_length_bytes
            · rw [if_pos hD] at h
              simp at h
            rw [if_neg hD] at h
            cases hE : parse_properties inflate num_properties s4 with
            | error e => rw [hE] at h; simp at h
            | ok p5 =>
              obtain ⟨props, s5⟩ := p5
              rw [hE] at h
              dsimp only at h
              by_cases hF : property_length_bytes ≠ s5.pos - s4.pos
              · rw [if_pos hF] at h
                simp at h
              rw [if_neg hF] at h
              cases hG : parse_node_after_props inflate fuel file_length end_offset s5 with
              | error e => rw [hG] at h; simp at h
              | ok p7 =>
                obtain ⟨children, s7⟩ := p7
                rw [hG] at h
                dsimp only at h
                by_cases hH : s7.pos ≠ end_offset
                · rw [if_pos hH] at h
                  simp at h
                rw [if_neg hH] at h
                simp only [Except.ok.injEq, Prod.mk.injEq] at h
                rw [← h.2]
                exact not_not.mp hH
  · intro fuel s2 s3 s4 s5 s7 num_properties property_length_bytes name props
      children h2 h3 h4 h5 h6 h7 h8 h9 hafter hne
    rw [parse_node_after_props_stage inflate fuel file_length s s1 s2 s3 s4 s5
      end_offset num_properties property_length_bytes name props
      h1 h2 h3 h4 h5 h6 h7 h8 h9, hafter]
    dsimp only
    rw [if_pos hne]

/-- C5 witness: the first conjunct applied to a concrete minimal node
(end offset 13, no properties, no children) whose successful decode ends
at position 13. -/
theorem c5_end_offset_reached_witness :
    ByteStream.readU32 ⟨[13, 0, 0, 0, 0, 0, 0, 0, 0, 0, 0, 0, 0, 0], 0⟩ =
      some (13, ⟨[13, 0, 0, 0, 0, 0, 0, 0, 0, 0, 0, 0, 0, 0], 4⟩) ∧
    (ByteStream.mk [13, 0, 0, 0, 0, 0, 0, 0, 0, 0, 0, 0, 0, 0] 13).pos = 13 :=
  ⟨by decide,
   (c5_end_offset_reached (fun _ => none) 14
      ⟨[13, 0, 0, 0, 0, 0, 0, 0, 0, 0, 0, 0, 0, 0], 0⟩ 13
      ⟨[13, 0, 0, 0, 0, 0, 0, 0, 0, 0, 0, 0, 0, 0], 4⟩ (by decide)).1
    2 (NodeRecord.mk [] [] [])
    ⟨[13, 0, 0, 0, 0, 0, 0, 0, 0, 0, 0, 0, 0, 0], 13⟩ rfl⟩

/-- C6: for a node with nested-child space (position strictly before the
end offset after its properties), fewer than 13 remaining bytes fail
with the insufficient-bytes validation error, and a 13-byte sentinel
block containing any non-zero byte fails with the sentinel validation
error. -/
theorem c6_sentinel_checks (inflate : List Nat → Option (List Nat))
    (fuel file_length : Nat) (s s1 s2 s3 s4 s5 : ByteStream)
    (end_offset num_properties property_length_bytes : Nat)
    (name : List Nat) (props : List PropertyRecordType)
    (h1 : s.readU32 = some (end_offset, s1))
    (h2 : end_offset ≠ 0)
    (h3 : end_offset < file_length)
    (h4 : s1.readU32 = some (num_properties, s2))
    (h5 : s2.readU32 = some (property_length_bytes, s3))
    (h6 : parse_string s3 = .ok (name, s4))
    (h7 : s4.pos + property_length_bytes ≤ file_length)
    (h8 : parse_properties inflate num_properties s4 = .ok (props, s5))
    (h9 : property_length_bytes = s5.pos - s4.pos)
    (h10 : s5.pos < end_offset) :
    (end_offset - s5.pos < sentinel_block_length →
      parse_node inflate (fuel + 2) file_length s =
        .error (.ValidationError "insufficient amount of bytes at end of node")) ∧
    (∀ (children : List NodeRecord) (s6 : ByteStream)
      (sentinel : List Nat) (s7 : ByteStream),
      ¬ end_offset - s5.pos < sentinel_block_length →
      parse_children inflate fuel file_length end_offset s5 = .ok (children, s6) →
      s6.readN sentinel_block_length = some (sentinel, s7) →
      sentinel.any (fun b => b ≠ 0) = true →
      parse_node inflate (fuel + 2) file_length s =
        .error (.ValidationError "sentinel block contains non-zero values")) := by
  have hstage := parse_node_after_props_stage inflate (fuel + 1) file_length
    s s1 s2 s3 s4 s5 end_offset num_properties property_length_bytes name props
    h1 h2 h3 h4 h5 h6 h7 h8 h9
  constructor
  · intro ha
    rw [hstage]
    have hab : parse_node_after_props inflate (fuel + 1) file_length end_offset s5 =
        .error (.ValidationError "insufficient amount of bytes at end of node") := by
      unfold parse_node_after_props
      dsimp only
      rw [if_pos h10, if_pos ha]
    rw [hab]
  · intro children s6 sentinel s7 hb hch hread hany
    rw [hstage]
    have hab : parse_node_after_props inflate (fuel + 1) file_length end_offset s5 =
        .error (.ValidationError "sentinel block contains non-zero values") := by
      unfold parse_node_after_props
      dsimp only
      rw [if_pos h10, if_neg hb, hch]
      dsimp only
      rw [hread]
      dsimp only
      rw [if_pos hany]
    rw [hab]

/-- C6 witness: the second conjunct applied to a concrete node whose
13-byte sentinel has a single 1 in its fifth byte, which is rejected
with the sentinel validation error. -/
theorem c6_sentinel_checks_witness :
    parse_node (fun _ => none) 3 27
      ⟨[26, 0, 0, 0, 0, 0, 0, 0, 0, 0, 0, 0, 0,
        0, 0, 0, 0, 1, 0, 0, 0, 0, 0, 0, 0, 0, 0], 0⟩ =
      .error (.ValidationError "sentinel block contains non-zero values") :=
  (c6_sentinel_checks (fun _ => none) 1 27
    ⟨[26, 0, 0, 0, 0, 0, 0, 0, 0, 0, 0, 0, 0,
      0, 0, 0, 0, 1, 0, 0, 0, 0, 0, 0, 0, 0, 0], 0⟩
    ⟨[26, 0, 0, 0, 0, 0, 0, 0, 0, 0, 0, 0, 0,
      0, 0, 0, 0, 1, 0, 0, 0, 0, 0, 0, 0, 0, 0], 4⟩
    ⟨[26, 0, 0, 0, 0, 0, 0, 0, 0, 0, 0, 0, 0,
      0, 0, 0, 0, 1, 0, 0, 0, 0, 0, 0, 0, 0, 0], 8⟩
    ⟨[26, 0, 0, 0, 0, 0, 0, 0, 0, 0, 0, 0, 0,
      0, 0, 0, 0, 1, 0, 0, 0, 0, 0, 0, 0, 0, 0], 12⟩
    ⟨[26, 0, 0, 0, 0, 0, 0, 0, 0, 0, 0, 0, 0,
      0, 0, 0, 0, 1, 0, 0, 0, 0, 0, 0, 0, 0, 0], 13⟩
    ⟨[26, 0, 0, 0, 0, 0, 0, 0, 0, 0, 0, 0, 0,
      0, 0, 0, 0, 1, 0, 0, 0, 0, 0, 0, 0, 0, 0], 13⟩
    26 0 0 [] []
    (by decide) (by decide) (by decide) (by decide) (by decide)
    (by decide) (by decide) (by decide) (by decide) (by decide)).2
    [] ⟨[26, 0, 0, 0, 0, 0, 0, 0, 0, 0, 0, 0, 0,
      0, 0, 0, 0, 1, 0, 0, 0, 0, 0, 0, 0, 0, 0], 13⟩
    [0, 0, 0, 0, 1, 0, 0, 0, 0, 0, 0, 0, 0]
    ⟨[26, 0, 0, 0, 0, 0, 0, 0, 0, 0, 0, 0, 0,
      0, 0, 0, 0, 1, 0, 0, 0, 0, 0, 0, 0, 0, 0], 26⟩
    (by decide) rfl (by decide) (by decide)

end Fbx
